import Mathlib

/-
Shallow embedding of the polymarket-agent trading core, developed to settle
the frozen claims about the repository.

Modelling conventions, used throughout:
  - f64 and rust_decimal::Decimal values on the money path are modelled as
    exact rationals (the spec's data model demands exact decimal arithmetic,
    and every claim at issue is algebraic, not about rounding);
  - Uuid market identifiers are modelled as naturals; outcome-id and
    category strings are modelled as naturals (opaque tokens with equality);
  - timestamps (created_at, updated_at, PnLRecord.timestamp) are dropped:
    no claim depends on wall-clock time;
  - HashMap is modelled as an association list in iteration order; removal
    erases every entry with the key, which coincides with HashMap behaviour
    because a HashMap cannot hold duplicate keys;
  - fallible operations return Except / Option; a rust_decimal division by a
    zero divisor panics in the source, and such a path is modelled as none.
-/

namespace PolymarketAgent

abbrev MarketId := Nat
abbrev OutcomeId := Nat

/-! Kelly sizing, from src/portfolio-risk/src/risk.rs (KellyCriterion) and
src/signal-generation/src/kelly.rs (KellyCalculator). -/

structure KellyCriterion where
  edge : Option ℚ
  multiplier : ℚ

/-- Embeds KellyCriterion::calculate_position from risk.rs lines 214-249.
The 0.25 cap is hardcoded in the source. -/
def KellyCriterion.calculate_position (k : KellyCriterion) (price bankroll : ℚ) : ℚ :=
  if price ≤ 0 ∨ 1 ≤ price ∨ bankroll ≤ 0 then 0
  else
    let b : ℚ := 1 / price - 1
    let p : ℚ :=
      match k.edge with
      | some e => min (price + e) (99 / 100)
      | none => price
    let q : ℚ := 1 - p
    let full_kelly : ℚ := (b * p - q) / b
    let kelly_fraction : ℚ := max (full_kelly * k.multiplier) 0
    let capped_fraction : ℚ := min kelly_fraction (1 / 4)
    capped_fraction * bankroll

structure KellyCalculator where
  max_fraction : ℚ
  safety_multiplier : ℚ
  min_fraction : ℚ
deriving DecidableEq

/-- Embeds the Default instance of KellyCalculator in kelly.rs. -/
def KellyCalculator.default : KellyCalculator :=
  { max_fraction := 1 / 4, safety_multiplier := 1 / 2, min_fraction := 1 / 100 }

/-- Embeds KellyCalculator::calculate from kelly.rs lines 43-67.  The source
computes b = avg_win / avg_loss.abs() before any guard, and rust_decimal
division panics on a zero divisor, so the avg_loss = 0 path is modelled as
none (a panic); every other input returns some value.  The f64
win_probability is converted with Decimal::from_f64 in the source; here it is
taken as an exact rational directly. -/
def KellyCalculator.calculate (c : KellyCalculator) (win_probability : ℚ)
    (avg_win avg_loss : ℚ) : Option ℚ :=
  if avg_loss = 0 then none
  else
    let p := win_probability
    let q : ℚ := 1 - p
    let b : ℚ := avg_win / |avg_loss|
    let bp : ℚ := b * p
    let numerator : ℚ := bp - q
    if b = 0 then some 0
    else
      let kelly : ℚ := numerator / b
      let safe_kelly : ℚ := kelly * c.safety_multiplier
      some (max (min (max safe_kelly c.min_fraction) c.max_fraction) 0)

/-- Embeds KellyCalculator::position_size from kelly.rs. -/
def KellyCalculator.position_size (_c : KellyCalculator) (bankroll kelly_fraction : ℚ) : ℚ :=
  bankroll * kelly_fraction

/-! Brier score, from src/monitoring/src/calibration.rs.  The source returns
anyhow::Result but every path is Ok, so the embedding returns the value
directly.  Actual outcomes are i32, modelled as integers. -/

/-- Embeds BrierScoreCalculator::calculate from calibration.rs lines 321-337:
zero on an empty slice, otherwise the mean of (prob - actual)^2. -/
def BrierScoreCalculator.calculate (predictions : List (ℚ × ℤ)) : ℚ :=
  if predictions = [] then 0
  else
    (predictions.map (fun pa => (pa.1 - (pa.2 : ℚ)) ^ 2)).sum / (predictions.length : ℚ)

/-! Correlation graph, from src/signal-generation/src/correlation.rs.
Fields dropped from the opportunity record: the random Uuid id and the
formatted description string.  The opportunity_type string constants of the
source are modelled by an enumeration with one constructor per constant. -/

inductive SignalDirection
  | Long
  | Short
deriving DecidableEq

inductive CorrelationType
  | Implies
  | Suggests (strength : ℚ)
  | MutuallyExclusive
  | Cumulative
  | SameOutcome
deriving DecidableEq

structure CorrelationEdge where
  from_market : MarketId
  to_market : MarketId
  correlation_type : CorrelationType
  min_spread : ℚ
deriving DecidableEq

structure ArbitrageTrade where
  market_id : MarketId
  outcome_id : Option OutcomeId
  direction : SignalDirection
  entry_price : ℚ
  position_size : ℚ
deriving DecidableEq

/-- Stands for the opportunity_type string constants of correlation.rs. -/
inductive OpportunityKind
  | implicationViolation
  | suggestionViolation
  | mutuallyExclusiveViolation
  | sameOutcomePriceDiff
deriving DecidableEq

structure LogicalArbitrageOpportunity where
  markets : List MarketId
  opportunity_type : OpportunityKind
  violation_amount : ℚ
  trades : List ArbitrageTrade
  expected_profit : ℚ
deriving DecidableEq

/-- The market_prices HashMap is modelled as a function to Option. -/
structure CorrelationGraph where
  market_prices : MarketId → Option ℚ
  edges : List CorrelationEdge

/-- Embeds CorrelationGraph::check_implication (correlation.rs 133-176). -/
def CorrelationGraph.check_implication (g : CorrelationGraph) (edge : CorrelationEdge) :
    Option LogicalArbitrageOpportunity :=
  match g.market_prices edge.from_market, g.market_prices edge.to_market with
  | some price_a, some price_b =>
    if price_b < price_a then
      let violation := price_a - price_b
      if edge.min_spread ≤ violation then
        some { markets := [edge.from_market, edge.to_market],
               opportunity_type := .implicationViolation,
               violation_amount := violation,
               trades := [⟨edge.to_market, none, .Long, price_b, 100⟩,
                          ⟨edge.from_market, none, .Short, price_a, 100⟩],
               expected_profit := violation * 100 }
      else none
    else none
  | _, _ => none

/-- Embeds CorrelationGraph::check_suggestion (correlation.rs 179-229). -/
def CorrelationGraph.check_suggestion (g : CorrelationGraph) (edge : CorrelationEdge)
    (strength : ℚ) : Option LogicalArbitrageOpportunity :=
  match g.market_prices edge.from_market, g.market_prices edge.to_market with
  | some price_a, some price_b =>
    let implied_price_b := price_a / strength
    if price_b < implied_price_b then
      let violation := implied_price_b - price_b
      if edge.min_spread ≤ violation then
        some { markets := [edge.from_market, edge.to_market],
               opportunity_type := .suggestionViolation,
               violation_amount := violation,
               trades := [⟨edge.to_market, none, .Long, price_b, 100⟩,
                          ⟨edge.from_market, none, .Short, price_a, 100⟩],
               expected_profit := violation * 100 }
      else none
    else none
  | _, _ => none

/-- Embeds CorrelationGraph::check_mutually_exclusive (correlation.rs 232-277). -/
def CorrelationGraph.check_mutually_exclusive (g : CorrelationGraph) (edge : CorrelationEdge) :
    Option LogicalArbitrageOpportunity :=
  match g.market_prices edge.from_market, g.market_prices edge.to_market with
  | some price_a, some price_b =>
    let sum := price_a + price_b
    if 1 < sum then
      let violation := sum - 1
      if edge.min_spread ≤ violation then
        some { markets := [edge.from_market, edge.to_market],
               opportunity_type := .mutuallyExclusiveViolation,
               violation_amount := violation,
               trades := [⟨edge.from_market, none, .Short, price_a, 100⟩,
                          ⟨edge.to_market, none, .Short, price_b, 100⟩],
               expected_profit := violation * 100 }
      else none
    else none
  | _, _ => none

/-- Embeds CorrelationGraph::check_cumulative, which delegates to
check_mutually_exclusive in the source. -/
def CorrelationGraph.check_cumulative (g : CorrelationGraph) (edge : CorrelationEdge) :
    Option LogicalArbitrageOpportunity :=
  g.check_mutually_exclusive edge

/-- Embeds CorrelationGraph::check_same_outcome (correlation.rs 289-324).
Note the source emits a single trade, on from_market, at the lower of the
two prices. -/
def CorrelationGraph.check_same_outcome (g : CorrelationGraph) (edge : CorrelationEdge) :
    Option LogicalArbitrageOpportunity :=
  match g.market_prices edge.from_market, g.market_prices edge.to_market with
  | some price_a, some price_b =>
    let diff := |price_a - price_b|
    if edge.min_spread ≤ diff then
      some { markets := [edge.from_market, edge.to_market],
             opportunity_type := .sameOutcomePriceDiff,
             violation_amount := diff,
             trades := [⟨edge.from_market, none,
                         if price_a < price_b then .Long else .Short,
                         min price_a price_b, 100⟩],
             expected_profit := diff * 100 }
    else none
  | _, _ => none

/-- Embeds CorrelationGraph::find_violations (correlation.rs 95-130). -/
def CorrelationGraph.find_violations (g : CorrelationGraph) :
    List LogicalArbitrageOpportunity :=
  g.edges.filterMap (fun edge =>
    match edge.correlation_type with
    | .Implies => g.check_implication edge
    | .Suggests strength => g.check_suggestion edge strength
    | .MutuallyExclusive => g.check_mutually_exclusive edge
    | .Cumulative => g.check_cumulative edge
    | .SameOutcome => g.check_same_outcome edge)

/-! Pair-cost arbitrage, from src/signal-generation/src/pair_cost_arbitrage.rs.
The generator's TradeSignal carries random ids, timestamps and metadata; the
embedding keeps the deterministic fields the claims are about (direction,
entry price, position size). -/

structure PairCostConfig where
  target_pair_cost : ℚ
  safety_margin : ℚ
  min_position_size : ℚ
  max_imbalance_ratio : ℚ
  max_total_size : ℚ
  min_edge : ℚ
deriving DecidableEq

/-- Embeds the Default instance of PairCostConfig. -/
def PairCostConfig.default : PairCostConfig :=
  { target_pair_cost := 1, safety_margin := 99 / 100, min_position_size := 10,
    max_imbalance_ratio := 3 / 2, max_total_size := 1000, min_edge := 1 / 100 }

structure PairCostState where
  yes_qty : ℚ
  no_qty : ℚ
  yes_cost : ℚ
  no_cost : ℚ
  avg_yes_price : ℚ
  avg_no_price : ℚ
  pair_cost : ℚ
  total_invested : ℚ
deriving DecidableEq

/-- Embeds the Default instance of PairCostState: every field zero. -/
def PairCostState.default : PairCostState :=
  { yes_qty := 0, no_qty := 0, yes_cost := 0, no_cost := 0,
    avg_yes_price := 0, avg_no_price := 0, pair_cost := 0, total_invested := 0 }

/-- Embeds PairCostState::has_locked_profit. -/
def PairCostState.has_locked_profit (s : PairCostState) (config : PairCostConfig) : Bool :=
  decide (0 < s.pair_cost ∧ s.pair_cost < config.target_pair_cost * config.safety_margin)

/-- Embeds PairCostState::should_buy_yes (pair_cost_arbitrage.rs 97-120). -/
def PairCostState.should_buy_yes (s : PairCostState) (price : ℚ)
    (config : PairCostConfig) : Bool :=
  let new_yes_cost := s.yes_cost + price * config.min_position_size
  let new_yes_qty := s.yes_qty + config.min_position_size
  let new_avg_yes := new_yes_cost / new_yes_qty
  let new_pair_cost := new_avg_yes + s.avg_no_price
  if config.max_total_size < s.yes_qty + config.min_position_size then false
  else if 0 < s.no_qty ∧ config.max_imbalance_ratio < new_yes_qty / s.no_qty then false
  else decide (new_pair_cost < s.pair_cost ∧ new_pair_cost < config.safety_margin)

/-- Embeds PairCostState::should_buy_no (pair_cost_arbitrage.rs 123-146). -/
def PairCostState.should_buy_no (s : PairCostState) (price : ℚ)
    (config : PairCostConfig) : Bool :=
  let new_no_cost := s.no_cost + price * config.min_position_size
  let new_no_qty := s.no_qty + config.min_position_size
  let new_avg_no := new_no_cost / new_no_qty
  let new_pair_cost := s.avg_yes_price + new_avg_no
  if config.max_total_size < s.no_qty + config.min_position_size then false
  else if 0 < s.yes_qty ∧ config.max_imbalance_ratio < s.no_qty / s.yes_qty then false
  else decide (new_pair_cost < s.pair_cost ∧ new_pair_cost < config.safety_margin)

structure PriceLevel where
  price : ℚ
  size : ℚ
deriving DecidableEq

structure OrderBookSnapshot where
  bids : List PriceLevel
  asks : List PriceLevel
deriving DecidableEq

/-- Deterministic core of a TradeSignal emitted by the pair-cost generator. -/
structure TradeSignalCore where
  direction : SignalDirection
  entry_price : ℚ
  position_size : ℚ
deriving DecidableEq

/-- Embeds PairCostGenerator::find_entry_opportunity (pair_cost_arbitrage.rs
180-205): YES side from the best ask, NO side from 1 - best bid, with the
signal core fields of create_yes_signal / create_no_signal. -/
def PairCostGenerator.find_entry_opportunity (config : PairCostConfig)
    (order_book : OrderBookSnapshot) (state : PairCostState) :
    Option TradeSignalCore × Option TradeSignalCore :=
  let yes_signal :=
    match order_book.asks.head? with
    | some best_ask =>
      if state.should_buy_yes best_ask.price config then
        some ⟨.Long, best_ask.price, config.min_position_size⟩
      else none
    | none => none
  let no_signal :=
    match order_book.bids.head? with
    | some best_bid =>
      let no_price := 1 - best_bid.price
      if state.should_buy_no no_price config then
        some ⟨.Short, no_price, config.min_position_size⟩
      else none
    | none => none
  (yes_signal, no_signal)

/-- Embeds PairCostGenerator::generate (pair_cost_arbitrage.rs 291-325) for
one market whose stored state is passed explicitly (the source fetches it
from a per-market HashMap, defaulting to PairCostState::default). -/
def PairCostGenerator.generate (config : PairCostConfig) (state : PairCostState)
    (order_book : OrderBookSnapshot) : List TradeSignalCore :=
  if state.has_locked_profit config then []
  else
    let r := PairCostGenerator.find_entry_opportunity config order_book state
    r.1.toList ++ r.2.toList

/-! Position ledger, from src/portfolio-risk/src/portfolio.rs.  The
positions HashMap keyed by (market_id, outcome_id) is an association list in
iteration order; category strings are numeric tokens (0 stands for the
source's string constant "default", 1 for "uncategorized"). -/

inductive PositionState
  | Open
  | PartiallyClosed
  | Closed
deriving DecidableEq

structure Position where
  market_id : MarketId
  outcome_id : OutcomeId
  investment : ℚ
  avg_entry_price : ℚ
  current_price : ℚ
  unrealized_pnl : ℚ
  state : PositionState
deriving DecidableEq

/-- Embeds Position::new (portfolio.rs 387-399). -/
def Position.new (market_id : MarketId) (outcome_id : OutcomeId) (value price : ℚ) :
    Position :=
  { market_id := market_id, outcome_id := outcome_id, investment := value,
    avg_entry_price := price, current_price := price, unrealized_pnl := 0,
    state := .Open }

/-- Embeds Position::is_closed: investment at most the 0.01 epsilon. -/
def Position.is_closed (p : Position) : Bool :=
  decide (p.investment ≤ 1 / 100)

/-- Embeds Position::current_value (portfolio.rs 446-452). -/
def Position.current_value (p : Position) : ℚ :=
  if 0 < p.avg_entry_price then p.investment * (p.current_price / p.avg_entry_price)
  else 0

inductive LedgerError
  | sellValueNotPositive
  | sellMoreThanInvested
  | positionNotFound
deriving DecidableEq

/-- Embeds Position::update_on_sell (portfolio.rs 419-438).  Both error
checks precede every field assignment in the source, so the error branches
return before any state change. -/
def Position.update_on_sell (pos : Position) (value price : ℚ) :
    Except LedgerError (Position × ℚ) :=
  if value ≤ 0 then .error .sellValueNotPositive
  else if pos.investment < value then .error .sellMoreThanInvested
  else
    let shares_sold := value / price
    let cost_basis := shares_sold * pos.avg_entry_price
    let pnl := value - cost_basis
    .ok ({ pos with investment := pos.investment - cost_basis, current_price := price }, pnl)

structure PnLRecord where
  pnl : ℚ
  portfolio_value : ℚ
deriving DecidableEq

abbrev PosKey := MarketId × OutcomeId

structure Portfolio where
  positions : List (PosKey × Position)
  pnl_history : List PnLRecord
  total_realized_pnl : ℚ
  categories : List (MarketId × Nat)
deriving DecidableEq

/-- Lookup in the positions map: HashMap::get / HashMap::remove's returned
value. -/
def lookupPosition (l : List (PosKey × Position)) (k : PosKey) : Option Position :=
  (l.find? (fun kv => decide (kv.1 = k))).map (fun kv => kv.2)

/-- Removal from the positions map: HashMap::remove.  Erasing every entry
with the key coincides with HashMap behaviour, which cannot hold duplicate
keys. -/
def erasePosition (l : List (PosKey × Position)) (k : PosKey) :
    List (PosKey × Position) :=
  l.filter (fun kv => decide (¬ kv.1 = k))

/-- In-place update of the entry at a key: HashMap::get_mut followed by a
field update. -/
def setPosition (l : List (PosKey × Position)) (k : PosKey) (v : Position) :
    List (PosKey × Position) :=
  l.map (fun kv => if kv.1 = k then (k, v) else kv)

/-- Embeds Portfolio::total_value (portfolio.rs 161-163). -/
def Portfolio.total_value (p : Portfolio) : ℚ :=
  (p.positions.map (fun kv => kv.2.current_value)).sum

/-- Embeds Portfolio::record_pnl (portfolio.rs 205-216): push the record,
then drop the oldest record if the history exceeds 1000 entries.  The
record's timestamp is dropped from the model. -/
def Portfolio.record_pnl (p : Portfolio) (pnl : ℚ) : Portfolio :=
  let h := p.pnl_history ++ [{ pnl := pnl, portfolio_value := p.total_value }]
  { p with pnl_history := if 1000 < h.length then h.drop 1 else h }

/-- Embeds Portfolio::remove_position (portfolio.rs 66-99): look up the
position, apply update_on_sell (propagating its error before any ledger
change), record the PnL, and drop the position if it is closed.  Returns the
resulting ledger and the error, if any. -/
def Portfolio.remove_position (p : Portfolio) (market_id : MarketId)
    (outcome_id : OutcomeId) (value price : ℚ) : Portfolio × Option LedgerError :=
  let key : PosKey := (market_id, outcome_id)
  match lookupPosition p.positions key with
  | none => (p, some .positionNotFound)
  | some pos =>
    match pos.update_on_sell value price with
    | .error e => (p, some e)
    | .ok (pos', pnl) =>
      let p1 : Portfolio := { p with positions := setPosition p.positions key pos' }
      let p2 := p1.record_pnl pnl
      let p3 :=
        match lookupPosition p2.positions key with
        | some q => if q.is_closed then { p2 with positions := erasePosition p2.positions key }
                    else p2
        | none => p2
      (p3, none)

/-- The keys collected by Portfolio::resolve_market before its loop: the
keys of all positions of the market, in iteration order. -/
def marketKeys (p : Portfolio) (market_id : MarketId) : List PosKey :=
  (p.positions.filter (fun kv => decide (kv.1.1 = market_id))).map (fun kv => kv.1)

/-- One iteration of the loop of Portfolio::resolve_market (portfolio.rs
127-149): remove the position at the key, compute its resolution PnL from
the stored unrealized_pnl field, accumulate it, and record it. -/
def resolveStep (winning_outcome_id : OutcomeId) (acc : Portfolio × ℚ)
    (key : PosKey) : Portfolio × ℚ :=
  match lookupPosition acc.1.positions key with
  | none => acc
  | some position =>
    let pnl := if key.2 = winning_outcome_id then position.unrealized_pnl + position.investment
               else -position.investment
    let p' : Portfolio := { acc.1 with positions := erasePosition acc.1.positions key }
    (p'.record_pnl pnl, acc.2 + pnl)

/-- Embeds Portfolio::resolve_market (portfolio.rs 111-153): fold the loop
over the collected keys, then add the total to total_realized_pnl. -/
def Portfolio.resolve_market (p : Portfolio) (market_id : MarketId)
    (winning_outcome_id : OutcomeId) : Portfolio × ℚ :=
  let r := (marketKeys p market_id).foldl (resolveStep winning_outcome_id) (p, 0)
  ({ r.1 with total_realized_pnl := r.1.total_realized_pnl + r.2 }, r.2)

/-! Risk checker, from src/portfolio-risk/src/risk.rs. -/

inductive OrderSide
  | Buy
  | Sell
deriving DecidableEq

/-- Scalar fields of RiskLimits (config.rs); the per-theme theme_limits map
is not consulted by check_trade and is omitted. -/
structure RiskLimits where
  max_position_size : ℚ
  max_total_exposure : ℚ
  max_theme_exposure : ℚ
  max_positions : Nat
  max_theme_percentage : ℚ
  daily_loss_limit : ℚ
  stop_loss_percentage : ℚ
deriving DecidableEq

inductive RiskViolation
  | MaxPositionSizeExceeded (proposed limit : ℚ)
  | MaxTotalExposureExceeded (current proposed limit : ℚ)
  | MaxPositionsExceeded (current limit : Nat)
  | MaxThemeExposureExceeded (theme : Nat) (current proposed limit : ℚ)
  | DailyLossLimitExceeded (daily_pnl limit : ℚ)
  | MaxDrawdownExceeded (current limit : ℚ)
  | VaRLimitExceeded (var_95 limit : ℚ)
  | KellyLimitExceeded (proposed kelly_limit : ℚ)
  | CorrelationDetected (market_1 market_2 : Nat) (correlation : ℚ)
deriving DecidableEq

/-- Category of a market in the ledger: the categories entry, or the token
for "uncategorized" when absent (portfolio.rs 185-189). -/
def Portfolio.categoryOf (p : Portfolio) (market_id : MarketId) : Nat :=
  (((p.categories.find? (fun c => decide (c.1 = market_id))).map (fun c => c.2)).getD 1)

/-- One HashMap entry update of Portfolio::exposure_by_category:
entry(category).or_insert(0) += value. -/
def addExposure (l : List (Nat × ℚ)) (category : Nat) (value : ℚ) : List (Nat × ℚ) :=
  if l.any (fun e => decide (e.1 = category)) then
    l.map (fun e => if e.1 = category then (e.1, e.2 + value) else e)
  else l ++ [(category, 0 + value)]

/-- Embeds Portfolio::exposure_by_category (portfolio.rs 181-197).  The
final sort by descending value is omitted: every consumer in the claims sums
a filtered subset, which is invariant under the order. -/
def Portfolio.exposure_by_category (p : Portfolio) : List (Nat × ℚ) :=
  p.positions.foldl
    (fun acc kv => addExposure acc (p.categoryOf kv.2.market_id) kv.2.current_value) []

/-- Embeds RiskChecker::calculate_theme_exposure (risk.rs 169-176). -/
def RiskChecker.calculate_theme_exposure (p : Portfolio) (theme : Nat) : ℚ :=
  ((p.exposure_by_category.filter (fun e => decide (e.1 = theme))).map (fun e => e.2)).sum

/-- Embeds RiskChecker::check_trade (risk.rs 54-115).  The source checks, in
this order: total exposure, position size, position count (buys only), and
theme exposure (only when the portfolio already holds some position in the
market, always under the theme token 0 standing for "default"); there is no
Kelly or circuit-breaker check in check_trade.  Returns the first violation,
or none. -/
def RiskChecker.check_trade (limits : RiskLimits) (market_id : MarketId)
    (_outcome_id : OutcomeId) (side : OrderSide) (value : ℚ) (p : Portfolio) :
    Option RiskViolation :=
  let total_value := p.total_value
  let new_total_value := total_value + value
  if limits.max_total_exposure < new_total_value then
    some (.MaxTotalExposureExceeded total_value value limits.max_total_exposure)
  else if limits.max_position_size < value then
    some (.MaxPositionSizeExceeded value limits.max_position_size)
  else if side = .Buy ∧ limits.max_positions ≤ p.positions.length then
    some (.MaxPositionsExceeded p.positions.length limits.max_positions)
  else
    match p.positions.find? (fun kv => decide (kv.1.1 = market_id)) with
    | some _ =>
      let theme_exposure := RiskChecker.calculate_theme_exposure p 0
      let new_theme_exposure := theme_exposure + value
      if limits.max_theme_exposure < new_theme_exposure then
        some (.MaxThemeExposureExceeded 0 theme_exposure value limits.max_theme_exposure)
      else none
    | none => none

/-! Resolution PnL per position, as computed inside Portfolio::resolve_market:
the stored unrealized_pnl field plus the investment for the winning outcome,
minus the investment otherwise. -/

/-- PnL realized by resolve_market for one position entry. -/
def resolutionPnl (winning_outcome_id : OutcomeId) (kv : PosKey × Position) : ℚ :=
  if kv.1.2 = winning_outcome_id then kv.2.unrealized_pnl + kv.2.investment
  else -kv.2.investment

/-! Concrete inputs used by counterexamples and witnesses. -/

/-- A freshly bought position: 10 invested at average entry price 0.5, so the
unrealized_pnl field is 0 as Position::new leaves it. -/
def sampleWinningPosition : Position :=
  { market_id := 0, outcome_id := 7, investment := 10, avg_entry_price := 1 / 2,
    current_price := 1 / 2, unrealized_pnl := 0, state := .Open }

/-- A ledger holding exactly the sample position under key (0, 7). -/
def samplePortfolio : Portfolio :=
  { positions := [((0, 7), sampleWinningPosition)], pnl_history := [],
    total_realized_pnl := 0, categories := [] }

/-- An empty ledger. -/
def emptyPortfolio : Portfolio :=
  { positions := [], pnl_history := [], total_realized_pnl := 0, categories := [] }

/-- Limits under which a size-75 trade breaks both the 60 total-exposure cap
and the 50 position-size cap. -/
def riskLimitsBothExceeded : RiskLimits :=
  { max_position_size := 50, max_total_exposure := 60, max_theme_exposure := 1000,
    max_positions := 10, max_theme_percentage := 1, daily_loss_limit := 100,
    stop_loss_percentage := 1 / 10 }

/-- Limits under which a size-75 trade breaks only the 50 position-size cap. -/
def riskLimitsSizeOnly : RiskLimits :=
  { max_position_size := 50, max_total_exposure := 1000, max_theme_exposure := 1000,
    max_positions := 10, max_theme_percentage := 1, daily_loss_limit := 100,
    stop_loss_percentage := 1 / 10 }

/-- Two mutually-exclusive markets priced exactly at sum 1, with min_spread 0. -/
def mutexBoundaryGraph : CorrelationGraph :=
  { market_prices := fun m => if m = 0 then some (1 / 2) else if m = 1 then some (1 / 2) else none,
    edges := [⟨0, 1, .MutuallyExclusive, 0⟩] }

/-- Two same-outcome markets priced 0.40 and 0.60 with min_spread 0.10. -/
def sameOutcomeGraph : CorrelationGraph :=
  { market_prices := fun m => if m = 0 then some (2 / 5) else if m = 1 then some (3 / 5) else none,
    edges := [⟨0, 1, .SameOutcome, 1 / 10⟩] }

/-- The scenario-S1 order book: bids [(0.45, 100)], asks [(0.48, 100)]. -/
def s1OrderBook : OrderBookSnapshot :=
  { bids := [⟨45 / 100, 100⟩], asks := [⟨48 / 100, 100⟩] }

/-! Theorems.  Each claim of the specification is settled below; helper
lemmas are shared and never named after a claim's theorem. -/

/-- C3 counterexample: the claim says the Kelly position sizer returns a
value for every input (never panics), but KellyCalculator::calculate divides
by avg_loss.abs() before any guard, and rust_decimal division by zero
panics; at avg_loss = 0 (here with win probability 0.5 and avg_win 2 under
the default configuration) the call panics, modelled as none. -/
theorem kelly_calculate_zero_avg_loss_panics :
    KellyCalculator.calculate KellyCalculator.default (1 / 2) 2 0 = none := by
  norm_num [KellyCalculator.calculate]

/-- C3 (amended): KellyCriterion::calculate_position always returns a value
in [0, 0.25 · max(bankroll, 0)] (the 0.25 cap is the hardcoded max
fraction), and returns 0 whenever the price is not strictly between 0 and 1
or the bankroll is nonpositive; and for every input whose avg_loss is
nonzero — the only panicking input — KellyCalculator::calculate returns a
value in [0, max(max_fraction, 0)]. -/
theorem kelly_sizers_clamped (k : KellyCriterion) (price bankroll : ℚ)
    (c : KellyCalculator) (p aw al : ℚ) (hal : al ≠ 0) :
    (0 ≤ k.calculate_position price bankroll ∧
     k.calculate_position price bankroll ≤ (1 / 4) * max bankroll 0 ∧
     ((price ≤ 0 ∨ 1 ≤ price ∨ bankroll ≤ 0) → k.calculate_position price bankroll = 0)) ∧
    ∃ v, c.calculate p aw al = some v ∧ 0 ≤ v ∧ v ≤ max c.max_fraction 0 := by
  constructor
  · unfold KellyCriterion.calculate_position
    by_cases h : price ≤ 0 ∨ 1 ≤ price ∨ bankroll ≤ 0
    · rw [if_pos h]
      refine ⟨le_refl 0, ?_, fun _ => rfl⟩
      have : (0 : ℚ) ≤ max bankroll 0 := le_max_right _ _
      nlinarith
    · rw [if_neg h]
      push_neg at h
      obtain ⟨h1, h2, h3⟩ := h
      set pp : ℚ := match k.edge with
        | some e => min (price + e) (99 / 100)
        | none => price with hpp
      set fk : ℚ := ((1 / price - 1) * pp - (1 - pp)) / (1 / price - 1) with hfk
      have hc0 : 0 ≤ min (max (fk * k.multiplier) 0) (1 / 4) :=
        le_min (le_max_right _ _) (by norm_num)
      have hc1 : min (max (fk * k.multiplier) 0) (1 / 4) ≤ 1 / 4 := min_le_right _ _
      have hb0 : 0 ≤ bankroll := le_of_lt h3
      refine ⟨mul_nonneg hc0 hb0, ?_, fun hcon => ?_⟩
      · rw [max_eq_left hb0]
        exact mul_le_mul_of_nonneg_right hc1 hb0
      · rcases hcon with hc | hc | hc
        · exact absurd hc (not_le.mpr h1)
        · exact absurd hc (not_le.mpr h2)
        · exact absurd hc (not_le.mpr h3)
  · unfold KellyCalculator.calculate
    rw [if_neg hal]
    by_cases hb : aw / |al| = 0
    · rw [if_pos hb]
      exact ⟨0, rfl, le_refl 0, le_max_right _ _⟩
    · rw [if_neg hb]
      refine ⟨_, rfl, le_max_right _ _, ?_⟩
      exact max_le_max (min_le_right _ _) (le_refl 0)

/-- Witness for the amended C3 theorem at price 0.5, bankroll 1000,
multiplier 0.25, and the default calculator with avg_loss 1. -/
theorem kelly_sizers_clamped_witness :
    (1 : ℚ) ≠ 0 ∧
    ((0 ≤ KellyCriterion.calculate_position ⟨none, 1 / 4⟩ (1 / 2) 1000 ∧
      KellyCriterion.calculate_position ⟨none, 1 / 4⟩ (1 / 2) 1000 ≤ (1 / 4) * max 1000 0 ∧
      (((1 : ℚ) / 2 ≤ 0 ∨ 1 ≤ (1 : ℚ) / 2 ∨ (1000 : ℚ) ≤ 0) →
        KellyCriterion.calculate_position ⟨none, 1 / 4⟩ (1 / 2) 1000 = 0)) ∧
     ∃ v, KellyCalculator.default.calculate (3 / 5) 2 1 = some v ∧ 0 ≤ v ∧
       v ≤ max KellyCalculator.default.max_fraction 0) :=
  ⟨by norm_num,
   kelly_sizers_clamped ⟨none, 1 / 4⟩ (1 / 2) 1000 KellyCalculator.default (3 / 5) 2 1
     (by norm_num)⟩

/-- C10 counterexample: with avg_win 0 and avg_loss 1 — a nonzero average
loss, under the default configuration whose min_fraction 0.01 is positive
and below max_fraction — the net odds b are 0, and calculate returns 0
through its early b = 0 branch, strictly below min_fraction, so the
calculator does not always return at least min_fraction. -/
theorem kelly_zero_avg_win_bypasses_floor :
    KellyCalculator.default.min_fraction ≤ KellyCalculator.default.max_fraction ∧
    (1 : ℚ) ≠ 0 ∧
    KellyCalculator.calculate KellyCalculator.default (3 / 5) 0 1 = some 0 ∧
    (0 : ℚ) < KellyCalculator.default.min_fraction := by
  refine ⟨by norm_num [KellyCalculator.default], by norm_num, ?_,
    by norm_num [KellyCalculator.default]⟩
  norm_num [KellyCalculator.calculate, KellyCalculator.default]

/-- C10 (amended): whenever avg_win and avg_loss are both nonzero (so the
net odds b are nonzero and the early zero return is not taken) and
0 ≤ min_fraction ≤ max_fraction, calculate returns a value of at least
min_fraction, and exactly min_fraction whenever the safety-scaled Kelly
fraction is at most min_fraction. -/
theorem kelly_min_fraction_floor (c : KellyCalculator) (p aw al : ℚ)
    (haw : aw ≠ 0) (hal : al ≠ 0) (h0 : 0 ≤ c.min_fraction)
    (hmm : c.min_fraction ≤ c.max_fraction) :
    ∃ v, c.calculate p aw al = some v ∧ c.min_fraction ≤ v ∧
      (((aw / |al|) * p - (1 - p)) / (aw / |al|) * c.safety_multiplier ≤ c.min_fraction →
        v = c.min_fraction) := by
  have hb : aw / |al| ≠ 0 := div_ne_zero haw (abs_ne_zero.mpr hal)
  unfold KellyCalculator.calculate
  rw [if_neg hal, if_neg hb]
  refine ⟨_, rfl, ?_, fun hs => ?_⟩
  · calc c.min_fraction = min c.min_fraction c.max_fraction := (min_eq_left hmm).symm
      _ ≤ min (max ((aw / |al| * p - (1 - p)) / (aw / |al|) * c.safety_multiplier)
            c.min_fraction) c.max_fraction := min_le_min (le_max_right _ _) (le_refl _)
      _ ≤ _ := le_max_left _ _
  · rw [max_eq_right hs, min_eq_left hmm, max_eq_left h0]

/-- Witness for the amended C10 theorem: a negative-edge input (win
probability 0.3 at even odds) under the default calculator returns exactly
the 0.01 minimum fraction. -/
theorem kelly_min_fraction_floor_witness :
    ∃ v, KellyCalculator.default.calculate (3 / 10) 1 1 = some v ∧
      KellyCalculator.default.min_fraction ≤ v ∧
      ((((1 : ℚ) / |(1 : ℚ)|) * (3 / 10) - (1 - 3 / 10)) / ((1 : ℚ) / |(1 : ℚ)|)
          * KellyCalculator.default.safety_multiplier ≤ KellyCalculator.default.min_fraction →
        v = KellyCalculator.default.min_fraction) :=
  kelly_min_fraction_floor KellyCalculator.default (3 / 10) 1 1 (by norm_num) (by norm_num)
    (by norm_num [KellyCalculator.default]) (by norm_num [KellyCalculator.default])

/-- Helper: a sum of nonnegative rationals vanishes exactly when every term
does. -/
theorem list_sum_eq_zero_iff_of_nonneg (l : List ℚ) (h : ∀ x ∈ l, 0 ≤ x) :
    l.sum = 0 ↔ ∀ x ∈ l, x = 0 := by
  induction l with
  | nil => simp
  | cons a t ih =>
    have ha : 0 ≤ a := h a (List.mem_cons_self a t)
    have ht : ∀ x ∈ t, 0 ≤ x := fun x hx => h x (List.mem_cons_of_mem a hx)
    have hst : 0 ≤ t.sum := List.sum_nonneg ht
    rw [List.sum_cons, add_eq_zero_iff_of_nonneg ha hst, ih ht]
    constructor
    · rintro ⟨h1, h2⟩ x hx
      rcases List.mem_cons.mp hx with rfl | hx
      · exact h1
      · exact h2 x hx
    · intro hall
      exact ⟨hall a (List.mem_cons_self a t),
        fun x hx => hall x (List.mem_cons_of_mem a hx)⟩

/-- C9: for every nonempty prediction list (the mean requires at least one
prediction; the source returns 0 on an empty slice) whose probabilities lie
in [0, 1] and whose actual outcomes are 0 or 1, the Brier score is the mean
of the squared errors, lies in [0, 1], vanishes exactly when every
probability equals its outcome, and equals 0.25 when every probability is
0.5. -/
theorem brier_score_boundary (l : List (ℚ × ℤ)) (hne : l ≠ [])
    (hr : ∀ pa ∈ l, 0 ≤ pa.1 ∧ pa.1 ≤ 1 ∧ (pa.2 = 0 ∨ pa.2 = 1)) :
    BrierScoreCalculator.calculate l
        = (l.map (fun pa => (pa.1 - (pa.2 : ℚ)) ^ 2)).sum / (l.length : ℚ) ∧
    0 ≤ BrierScoreCalculator.calculate l ∧
    BrierScoreCalculator.calculate l ≤ 1 ∧
    (BrierScoreCalculator.calculate l = 0 ↔ ∀ pa ∈ l, pa.1 = (pa.2 : ℚ)) ∧
    ((∀ pa ∈ l, pa.1 = 1 / 2) → BrierScoreCalculator.calculate l = 1 / 4) := by
  have hlen0 : 0 < l.length := List.length_pos.mpr hne
  have hlen : 0 < (l.length : ℚ) := by exact_mod_cast hlen0
  have hcalc : BrierScoreCalculator.calculate l
      = (l.map (fun pa => (pa.1 - (pa.2 : ℚ)) ^ 2)).sum / (l.length : ℚ) := by
    rw [BrierScoreCalculator.calculate, if_neg hne]
  have hterm0 : ∀ x ∈ l.map (fun pa => (pa.1 - (pa.2 : ℚ)) ^ 2), 0 ≤ x := by
    intro x hx
    obtain ⟨pa, _, rfl⟩ := List.mem_map.mp hx
    exact sq_nonneg _
  have hsum0 : 0 ≤ (l.map (fun pa => (pa.1 - (pa.2 : ℚ)) ^ 2)).sum :=
    List.sum_nonneg hterm0
  refine ⟨hcalc, ?_, ?_, ?_, ?_⟩
  · rw [hcalc]
    exact div_nonneg hsum0 (le_of_lt hlen)
  · rw [hcalc, div_le_one hlen]
    have hone : ∀ x ∈ l.map (fun pa => (pa.1 - (pa.2 : ℚ)) ^ 2), x ≤ 1 := by
      intro x hx
      obtain ⟨pa, hpa, rfl⟩ := List.mem_map.mp hx
      obtain ⟨hp0, hp1, ha⟩ := hr pa hpa
      have habs : |pa.1 - (pa.2 : ℚ)| ≤ 1 := by
        rcases ha with h | h <;> rw [h] <;> push_cast <;>
          exact abs_le.mpr ⟨by linarith, by linarith⟩
      calc (pa.1 - (pa.2 : ℚ)) ^ 2 = |pa.1 - (pa.2 : ℚ)| ^ 2 := (sq_abs _).symm
        _ ≤ 1 ^ 2 := by
            exact pow_le_pow_left₀ (abs_nonneg _) habs 2
        _ = 1 := one_pow 2
    calc (l.map (fun pa => (pa.1 - (pa.2 : ℚ)) ^ 2)).sum
        ≤ (l.map (fun pa => (pa.1 - (pa.2 : ℚ)) ^ 2)).length • (1 : ℚ) :=
          List.sum_le_card_nsmul _ 1 hone
      _ = (l.length : ℚ) := by rw [List.length_map, nsmul_eq_mul, mul_one]
  · rw [hcalc, div_eq_zero_iff]
    have hcast : ¬ ((l.length : ℚ) = 0) := ne_of_gt hlen
    simp only [hcast, or_false]
    rw [list_sum_eq_zero_iff_of_nonneg _ hterm0]
    constructor
    · intro hall pa hpa
      have := hall _ (List.mem_map.mpr ⟨pa, hpa, rfl⟩)
      have := pow_eq_zero_iff (n := 2) (by norm_num) |>.mp this
      linarith [sub_eq_zero.mp this]
    · intro hall x hx
      obtain ⟨pa, hpa, rfl⟩ := List.mem_map.mp hx
      rw [sub_eq_zero.mpr (hall pa hpa)]
      norm_num
  · intro hhalf
    rw [hcalc]
    have hq : ∀ x ∈ l.map (fun pa => (pa.1 - (pa.2 : ℚ)) ^ 2), x = 1 / 4 := by
      intro x hx
      obtain ⟨pa, hpa, rfl⟩ := List.mem_map.mp hx
      obtain ⟨_, _, ha⟩ := hr pa hpa
      rw [hhalf pa hpa]
      rcases ha with h | h <;> rw [h] <;> norm_num
    rw [List.sum_eq_card_nsmul _ _ hq, List.length_map, nsmul_eq_mul]
    field_simp
    ring

/-- Witness for the C9 theorem at the one-element list [(0.5, 1)]. -/
theorem brier_score_boundary_witness :
    ([((1 : ℚ) / 2, (1 : ℤ))] ≠ []) ∧
    (BrierScoreCalculator.calculate [((1 : ℚ) / 2, (1 : ℤ))]
        = ([((1 : ℚ) / 2, (1 : ℤ))].map (fun pa => (pa.1 - (pa.2 : ℚ)) ^ 2)).sum
          / (([((1 : ℚ) / 2, (1 : ℤ))].length : ℚ)) ∧
     0 ≤ BrierScoreCalculator.calculate [((1 : ℚ) / 2, (1 : ℤ))] ∧
     BrierScoreCalculator.calculate [((1 : ℚ) / 2, (1 : ℤ))] ≤ 1 ∧
     (BrierScoreCalculator.calculate [((1 : ℚ) / 2, (1 : ℤ))] = 0 ↔
       ∀ pa ∈ [((1 : ℚ) / 2, (1 : ℤ))], pa.1 = (pa.2 : ℚ)) ∧
     ((∀ pa ∈ [((1 : ℚ) / 2, (1 : ℤ))], pa.1 = 1 / 2) →
       BrierScoreCalculator.calculate [((1 : ℚ) / 2, (1 : ℤ))] = 1 / 4)) :=
  ⟨by simp,
   brier_score_boundary [((1 : ℚ) / 2, (1 : ℤ))] (by simp)
     (by intro pa hpa; simp at hpa; rw [hpa]; norm_num)⟩

/-- C7 counterexample: at prices 0.5 and 0.5 with min_spread 0, the edge
satisfies P(A) + P(B) - 1 ≥ min_spread, yet find_violations reports nothing,
because check_mutually_exclusive additionally requires the sum to exceed 1
strictly. -/
theorem mutually_exclusive_boundary_cex :
    (0 : ℚ) ≤ (1 : ℚ) / 2 + 1 / 2 - 1 ∧
    CorrelationGraph.find_violations mutexBoundaryGraph = [] := by
  constructor
  · norm_num
  · norm_num [CorrelationGraph.find_violations, mutexBoundaryGraph,
      CorrelationGraph.check_mutually_exclusive, List.filterMap]

/-- C7 (amended): for a mutually-exclusive edge whose two prices are known,
whose sum strictly exceeds 1, and whose excess over 1 is at least
min_spread, find_violations reports exactly one opportunity: violation
amount P(A) + P(B) - 1, exactly two Short trades, one per market at that
market's price, and expected profit equal to the violation amount times the
notional size 100. -/
theorem mutually_exclusive_arbitrage (prices : MarketId → Option ℚ) (m1 m2 : MarketId)
    (ms pa pb : ℚ) (h1 : prices m1 = some pa) (h2 : prices m2 = some pb)
    (hsum : 1 < pa + pb) (hspread : ms ≤ pa + pb - 1) :
    CorrelationGraph.find_violations ⟨prices, [⟨m1, m2, .MutuallyExclusive, ms⟩]⟩ =
      [{ markets := [m1, m2], opportunity_type := .mutuallyExclusiveViolation,
         violation_amount := pa + pb - 1,
         trades := [⟨m1, none, .Short, pa, 100⟩, ⟨m2, none, .Short, pb, 100⟩],
         expected_profit := (pa + pb - 1) * 100 }] := by
  simp [CorrelationGraph.find_violations, CorrelationGraph.check_mutually_exclusive,
    h1, h2, hsum, hspread, List.filterMap]

/-- Witness for the amended C7 theorem at prices 0.60 and 0.50 with
min_spread 0.10, matching scenario S5. -/
theorem mutually_exclusive_arbitrage_witness :
    CorrelationGraph.find_violations
      ⟨fun m => if m = 0 then some (3 / 5) else if m = 1 then some (1 / 2) else none,
       [⟨0, 1, .MutuallyExclusive, 1 / 10⟩]⟩ =
      [{ markets := [0, 1], opportunity_type := .mutuallyExclusiveViolation,
         violation_amount := (3 : ℚ) / 5 + 1 / 2 - 1,
         trades := [⟨0, none, .Short, 3 / 5, 100⟩, ⟨1, none, .Short, 1 / 2, 100⟩],
         expected_profit := ((3 : ℚ) / 5 + 1 / 2 - 1) * 100 }] :=
  mutually_exclusive_arbitrage
    (fun m => if m = 0 then some (3 / 5) else if m = 1 then some (1 / 2) else none)
    0 1 (1 / 10) (3 / 5) (1 / 2) (by norm_num) (by norm_num) (by norm_num) (by norm_num)

/-- C8 counterexample: for a same-outcome edge at prices 0.40 and 0.60 with
min_spread 0.10 the claim requires a Long trade on the cheaper market and a
Short trade on the richer market, but the reported opportunity holds exactly
one trade, on from_market, so in particular no Short trade on any market is
present. -/
theorem same_outcome_two_sided_cex :
    ((1 : ℚ) / 10 ≤ |(2 : ℚ) / 5 - 3 / 5|) ∧
    CorrelationGraph.find_violations sameOutcomeGraph =
      [{ markets := [0, 1], opportunity_type := .sameOutcomePriceDiff,
         violation_amount := 1 / 5,
         trades := [⟨0, none, .Long, 2 / 5, 100⟩],
         expected_profit := (1 : ℚ) / 5 * 100 }] ∧
    ([(⟨0, none, .Long, 2 / 5, 100⟩ : ArbitrageTrade)].length = 1) := by
  refine ⟨by rw [abs_of_nonpos] <;> norm_num, ?_, rfl⟩
  norm_num [CorrelationGraph.find_violations, sameOutcomeGraph,
    CorrelationGraph.check_same_outcome, List.filterMap, abs_of_nonpos]

/-- C8 (amended): for a same-outcome edge with both prices known and
differing by at least min_spread, the reported opportunity carries the
violation |P(A) - P(B)| and exactly one trade, on from_market, Long when
from_market is the cheaper side and Short otherwise, always at the lower of
the two prices, with size 100. -/
theorem same_outcome_single_trade (prices : MarketId → Option ℚ) (m1 m2 : MarketId)
    (ms pa pb : ℚ) (h1 : prices m1 = some pa) (h2 : prices m2 = some pb)
    (hd : ms ≤ |pa - pb|) :
    CorrelationGraph.find_violations ⟨prices, [⟨m1, m2, .SameOutcome, ms⟩]⟩ =
      [{ markets := [m1, m2], opportunity_type := .sameOutcomePriceDiff,
         violation_amount := |pa - pb|,
         trades := [⟨m1, none, if pa < pb then .Long else .Short, min pa pb, 100⟩],
         expected_profit := |pa - pb| * 100 }] := by
  simp [CorrelationGraph.find_violations, CorrelationGraph.check_same_outcome,
    h1, h2, hd, List.filterMap]

/-- Witness for the amended C8 theorem at prices 0.40 and 0.60 with
min_spread 0.10. -/
theorem same_outcome_single_trade_witness :
    CorrelationGraph.find_violations
      ⟨fun m => if m = 0 then some (2 / 5) else if m = 1 then some (3 / 5) else none,
       [⟨0, 1, .SameOutcome, 1 / 10⟩]⟩ =
      [{ markets := [0, 1], opportunity_type := .sameOutcomePriceDiff,
         violation_amount := |(2 : ℚ) / 5 - 3 / 5|,
         trades := [⟨0, none, if (2 : ℚ) / 5 < 3 / 5 then .Long else .Short,
                     min ((2 : ℚ) / 5) (3 / 5), 100⟩],
         expected_profit := |(2 : ℚ) / 5 - 3 / 5| * 100 }] :=
  same_outcome_single_trade
    (fun m => if m = 0 then some (2 / 5) else if m = 1 then some (3 / 5) else none)
    0 1 (1 / 10) (2 / 5) (3 / 5) (by norm_num) (by norm_num)
    (by rw [abs_of_nonpos] <;> norm_num)

/-- C6: on scenario S1's snapshot (best ask 0.48, within every cap and below
the safety margin) with no prior pair-cost state, the generator emits no
signal at all: should_buy_yes demands that the hypothetical pair cost 0.48
be strictly below the current pair_cost, which is 0 on a fresh state, so the
generator can never make its first buy.  The spec expects a YES buy at 0.48
here. -/
theorem pair_cost_s1_emits_nothing :
    PairCostGenerator.generate PairCostConfig.default PairCostState.default s1OrderBook = [] ∧
    PairCostState.should_buy_yes PairCostState.default (48 / 100) PairCostConfig.default
      = false := by
  constructor
  · norm_num [PairCostGenerator.generate, PairCostGenerator.find_entry_opportunity,
      PairCostState.has_locked_profit, PairCostState.should_buy_yes,
      PairCostState.should_buy_no, PairCostState.default, PairCostConfig.default, s1OrderBook]
  · norm_num [PairCostState.should_buy_yes, PairCostState.default, PairCostConfig.default]

/-- C2 counterexample: with max_position_size 50 and max_total_exposure 60,
a size-75 buy into an empty ledger exceeds both limits, and check_trade
returns MaxTotalExposureExceeded, not the MaxPositionSize violation the
claim requires for any trade whose size exceeds max_position_size. -/
theorem check_trade_order_cex :
    riskLimitsBothExceeded.max_position_size < 75 ∧
    RiskChecker.check_trade riskLimitsBothExceeded 0 7 .Buy 75 emptyPortfolio
      = some (.MaxTotalExposureExceeded 0 75 60) ∧
    RiskChecker.check_trade riskLimitsBothExceeded 0 7 .Buy 75 emptyPortfolio
      ≠ some (.MaxPositionSizeExceeded 75 50) := by
  have h : RiskChecker.check_trade riskLimitsBothExceeded 0 7 .Buy 75 emptyPortfolio
      = some (.MaxTotalExposureExceeded 0 75 60) := by
    norm_num [RiskChecker.check_trade, riskLimitsBothExceeded, emptyPortfolio,
      Portfolio.total_value]
  refine ⟨by norm_num [riskLimitsBothExceeded], h, ?_⟩
  rw [h]
  intro hc
  simp at hc

/-- C2 (amended): check_trade evaluates total exposure before position size
(the reverse of the spec's listed order, with no Kelly or circuit-breaker
step), and the first failing check determines the violation: when the new
total exposure exceeds its limit the exposure violation is returned even if
the size limit is also broken, and the MaxPositionSize violation with the
proposed size and the limit is returned exactly when the exposure check
passes and the size exceeds max_position_size. -/
theorem check_trade_order (limits : RiskLimits) (m : MarketId) (o : OutcomeId)
    (side : OrderSide) (value : ℚ) (p : Portfolio) :
    (limits.max_total_exposure < p.total_value + value →
      RiskChecker.check_trade limits m o side value p =
        some (.MaxTotalExposureExceeded p.total_value value limits.max_total_exposure)) ∧
    (p.total_value + value ≤ limits.max_total_exposure →
      limits.max_position_size < value →
      RiskChecker.check_trade limits m o side value p =
        some (.MaxPositionSizeExceeded value limits.max_position_size)) := by
  constructor
  · intro h
    unfold RiskChecker.check_trade
    rw [if_pos h]
  · intro h1 h2
    unfold RiskChecker.check_trade
    rw [if_neg (not_lt.mpr h1), if_pos h2]

/-- Witness for the amended C2 theorem: under limits with a large exposure
cap, the same size-75 trade is rejected as MaxPositionSize. -/
theorem check_trade_order_witness :
    (emptyPortfolio.total_value + 75 ≤ riskLimitsSizeOnly.max_total_exposure) ∧
    (riskLimitsSizeOnly.max_position_size < 75) ∧
    RiskChecker.check_trade riskLimitsSizeOnly 0 7 .Buy 75 emptyPortfolio
      = some (.MaxPositionSizeExceeded 75 riskLimitsSizeOnly.max_position_size) :=
  ⟨by norm_num [riskLimitsSizeOnly, emptyPortfolio, Portfolio.total_value],
   by norm_num [riskLimitsSizeOnly],
   (check_trade_order riskLimitsSizeOnly 0 7 .Buy 75 emptyPortfolio).2
     (by norm_num [riskLimitsSizeOnly, emptyPortfolio, Portfolio.total_value])
     (by norm_num [riskLimitsSizeOnly])⟩

/-- C4: a sell of more money than the position's remaining investment fails
with an error, and the returned ledger is exactly the input ledger — the
position's fields, the positions map, the PnL history and the total
realized PnL are all unchanged — because both error checks in
update_on_sell precede every assignment and remove_position propagates the
error before recording anything. -/
theorem sell_more_than_invested_aborts (p : Portfolio) (m : MarketId) (o : OutcomeId)
    (value price : ℚ) (pos : Position)
    (hpos : lookupPosition p.positions (m, o) = some pos)
    (hover : pos.investment < value) :
    ∃ e, p.remove_position m o value price = (p, some e) := by
  unfold Portfolio.remove_position
  simp only [hpos]
  unfold Position.update_on_sell
  by_cases hv : value ≤ 0
  · rw [if_pos hv]
    exact ⟨.sellValueNotPositive, rfl⟩
  · rw [if_neg hv, if_pos hover]
    exact ⟨.sellMoreThanInvested, rfl⟩

/-- Witness for the C4 theorem: selling 20 from the sample position holding
an investment of 10 aborts and leaves the ledger untouched. -/
theorem sell_more_than_invested_aborts_witness :
    ∃ e, samplePortfolio.remove_position 0 7 20 (1 / 2) = (samplePortfolio, some e) :=
  sell_more_than_invested_aborts samplePortfolio 0 7 20 (1 / 2) sampleWinningPosition
    (by rfl) (by norm_num [sampleWinningPosition])

/-! Helper lemmas on the association-list positions map and the
resolve_market fold. -/

theorem lookupPosition_cons (a : PosKey × Position) (l : List (PosKey × Position))
    (k : PosKey) :
    lookupPosition (a :: l) k = if a.1 = k then some a.2 else lookupPosition l k := by
  unfold lookupPosition
  by_cases h : a.1 = k
  · rw [List.find?_cons_of_pos _ (by simp [h]), if_pos h]
    rfl
  · rw [List.find?_cons_of_neg _ (by simp [h]), if_neg h]

theorem erasePosition_cons (a : PosKey × Position) (l : List (PosKey × Position))
    (k : PosKey) :
    erasePosition (a :: l) k
      = if a.1 = k then erasePosition l k else a :: erasePosition l k := by
  unfold erasePosition
  rw [List.filter_cons]
  by_cases h : a.1 = k <;> simp [h]

theorem erasePosition_of_lookup_none (l : List (PosKey × Position)) (k : PosKey)
    (h : lookupPosition l k = none) : erasePosition l k = l := by
  unfold lookupPosition at h
  have h' := List.find?_eq_none.mp (Option.map_eq_none'.mp h)
  apply List.filter_eq_self.mpr
  intro a ha
  simpa using h' a ha

theorem lookupPosition_erase_of_ne (l : List (PosKey × Position)) (k k' : PosKey)
    (h : k' ≠ k) : lookupPosition (erasePosition l k) k' = lookupPosition l k' := by
  induction l with
  | nil => rfl
  | cons a t ih =>
    rw [erasePosition_cons, lookupPosition_cons]
    by_cases ha : a.1 = k
    · rw [if_pos ha, ih]
      have hne : ¬ a.1 = k' := fun hc => h (by rw [← hc, ha])
      rw [if_neg hne]
    · rw [if_neg ha, lookupPosition_cons, ih]

theorem lookupPosition_of_nodup_mem (l : List (PosKey × Position))
    (kv : PosKey × Position) (hnd : (l.map Prod.fst).Nodup) (hm : kv ∈ l) :
    lookupPosition l kv.1 = some kv.2 := by
  induction l with
  | nil => cases hm
  | cons a t ih =>
    simp only [List.map_cons] at hnd
    rw [lookupPosition_cons]
    rcases List.mem_cons.mp hm with rfl | hmt
    · rw [if_pos rfl]
    · have hne : ¬ a.1 = kv.1 := by
        intro hc
        exact (List.nodup_cons.mp hnd).1 (hc ▸ List.mem_map_of_mem Prod.fst hmt)
      rw [if_neg hne]
      exact ih (List.nodup_cons.mp hnd).2 hmt

theorem record_pnl_positions (p : Portfolio) (x : ℚ) :
    (p.record_pnl x).positions = p.positions := rfl

theorem record_pnl_total_realized (p : Portfolio) (x : ℚ) :
    (p.record_pnl x).total_realized_pnl = p.total_realized_pnl := rfl

theorem record_pnl_history (p : Portfolio) (x : ℚ)
    (h : p.pnl_history.length + 1 ≤ 1000) :
    (p.record_pnl x).pnl_history
      = p.pnl_history ++ [{ pnl := x, portfolio_value := p.total_value }] := by
  have hlen : ¬ (1000 <
      (p.pnl_history ++ [({ pnl := x, portfolio_value := p.total_value } : PnLRecord)]).length) := by
    simp only [List.length_append, List.length_cons, List.length_nil]
    omega
  simp only [Portfolio.record_pnl, if_neg hlen]

theorem resolveStep_positions (w : OutcomeId) (acc : Portfolio × ℚ) (k : PosKey) :
    (resolveStep w acc k).1.positions = erasePosition acc.1.positions k := by
  unfold resolveStep
  cases h : lookupPosition acc.1.positions k with
  | none => exact (erasePosition_of_lookup_none _ _ h).symm
  | some position => rw [record_pnl_positions]

theorem resolveStep_total_realized (w : OutcomeId) (acc : Portfolio × ℚ) (k : PosKey) :
    (resolveStep w acc k).1.total_realized_pnl = acc.1.total_realized_pnl := by
  unfold resolveStep
  cases h : lookupPosition acc.1.positions k with
  | none => rfl
  | some position => rw [record_pnl_total_realized]

theorem foldl_resolveStep_positions (w : OutcomeId) :
    ∀ (ks : List PosKey) (acc : Portfolio × ℚ),
      ((ks.foldl (resolveStep w) acc).1).positions
        = acc.1.positions.filter (fun kv => decide (kv.1 ∉ ks)) := by
  intro ks
  induction ks with
  | nil =>
    intro acc
    simp
  | cons k t ih =>
    intro acc
    rw [List.foldl_cons, ih, resolveStep_positions, erasePosition, List.filter_filter]
    apply List.filter_congr
    intro kv _
    by_cases h1 : kv.1 ∈ t <;> by_cases h2 : kv.1 = k <;> simp [h1, h2]

theorem foldl_resolveStep_total_realized (w : OutcomeId) :
    ∀ (ks : List PosKey) (acc : Portfolio × ℚ),
      ((ks.foldl (resolveStep w) acc).1).total_realized_pnl
        = acc.1.total_realized_pnl := by
  intro ks
  induction ks with
  | nil => intro acc; rfl
  | cons k t ih =>
    intro acc
    rw [List.foldl_cons, ih, resolveStep_total_realized]

theorem resolve_market_positions (p : Portfolio) (m : MarketId) (w : OutcomeId) :
    ((p.resolve_market m w).1).positions
      = p.positions.filter (fun kv => decide (kv.1 ∉ marketKeys p m)) :=
  foldl_resolveStep_positions w (marketKeys p m) (p, 0)

theorem fst_mem_marketKeys (p : Portfolio) (m : MarketId) (kv : PosKey × Position)
    (h : kv ∈ p.positions) (hm : kv.1.1 = m) : kv.1 ∈ marketKeys p m := by
  unfold marketKeys
  exact List.mem_map_of_mem _ (List.mem_filter.mpr ⟨h, by simp [hm]⟩)

theorem mem_marketKeys_market (p : Portfolio) (m : MarketId) (k : PosKey)
    (h : k ∈ marketKeys p m) : k.1 = m := by
  unfold marketKeys at h
  obtain ⟨kv, hkv, rfl⟩ := List.mem_map.mp h
  simpa using (List.mem_filter.mp hkv).2

/-- C5: resolving a market twice with the same winning outcome yields the
same ledger state as resolving it once.  The first call removes every
position of the market, so the second collects no keys, appends no PnL
records, and adds zero to the realized total. -/
theorem resolve_market_idempotent (p : Portfolio) (m : MarketId) (w : OutcomeId) :
    ((p.resolve_market m w).1.resolve_market m w).1 = (p.resolve_market m w).1 := by
  have hkeys : marketKeys (p.resolve_market m w).1 m = [] := by
    unfold marketKeys
    rw [resolve_market_positions]
    have hnil : (p.positions.filter (fun kv => decide (kv.1 ∉ marketKeys p m))).filter
        (fun kv => decide (kv.1.1 = m)) = [] := by
      apply List.filter_eq_nil_iff.mpr
      intro kv hkv
      obtain ⟨hmem, hnot⟩ := List.mem_filter.mp hkv
      simp only [decide_eq_true_eq] at hnot ⊢
      intro hm
      exact hnot (fst_mem_marketKeys p m kv hmem hm)
    rw [hnil, List.map_nil]
  revert hkeys
  generalize (p.resolve_market m w).1 = p1
  intro hkeys
  obtain ⟨pos1, hist1, tot1, cat1⟩ := p1
  unfold Portfolio.resolve_market
  rw [hkeys]
  simp

/-- Helper: over a duplicate-free entry list whose every entry is found in
the ledger, the resolve_market fold appends exactly one PnL record per
entry, carrying that entry's resolution PnL, and accumulates their sum,
provided the 1000-record cap is never reached. -/
theorem foldl_resolveStep_history (w : OutcomeId) :
    ∀ (entries : List (PosKey × Position)) (q : Portfolio) (acc : ℚ),
      (∀ kv ∈ entries, lookupPosition q.positions kv.1 = some kv.2) →
      ((entries.map Prod.fst).Nodup) →
      q.pnl_history.length + entries.length ≤ 1000 →
      ((entries.map Prod.fst).foldl (resolveStep w) (q, acc)).1.pnl_history.map PnLRecord.pnl
          = q.pnl_history.map PnLRecord.pnl ++ entries.map (resolutionPnl w) ∧
      ((entries.map Prod.fst).foldl (resolveStep w) (q, acc)).2
          = acc + (entries.map (resolutionPnl w)).sum ∧
      ((entries.map Prod.fst).foldl (resolveStep w) (q, acc)).1.pnl_history.length
          = q.pnl_history.length + entries.length := by
  intro entries
  induction entries with
  | nil => intro q acc _ _ _; simp
  | cons kv rest ih =>
    intro q acc hlk hnd hlen
    simp only [List.length_cons] at hlen
    have hhead : lookupPosition q.positions kv.1 = some kv.2 :=
      hlk kv (List.mem_cons_self _ _)
    set q1 : Portfolio := { q with positions := erasePosition q.positions kv.1 }
      with hq1def
    have hq1hist : q1.pnl_history = q.pnl_history := rfl
    have hq2 : resolveStep w (q, acc) kv.1
        = (q1.record_pnl (resolutionPnl w kv), acc + resolutionPnl w kv) := by
      simp only [resolveStep, resolutionPnl, hhead, hq1def]
    rw [List.map_cons, List.foldl_cons, hq2]
    have hq2hist : (q1.record_pnl (resolutionPnl w kv)).pnl_history
        = q.pnl_history ++ [⟨resolutionPnl w kv, q1.total_value⟩] := by
      rw [record_pnl_history q1 _ (by rw [hq1hist]; omega), hq1hist]
    have hrest : ∀ kv' ∈ rest,
        lookupPosition (q1.record_pnl (resolutionPnl w kv)).positions kv'.1
          = some kv'.2 := by
      intro kv' hkv'
      have hne : kv'.1 ≠ kv.1 := by
        intro hcontra
        simp only [List.map_cons] at hnd
        exact (List.nodup_cons.mp hnd).1 (hcontra ▸ List.mem_map_of_mem Prod.fst hkv')
      rw [record_pnl_positions]
      show lookupPosition (erasePosition q.positions kv.1) kv'.1 = some kv'.2
      rw [lookupPosition_erase_of_ne _ _ _ hne]
      exact hlk kv' (List.mem_cons_of_mem _ hkv')
    have hndr : (rest.map Prod.fst).Nodup := by
      simp only [List.map_cons] at hnd
      exact (List.nodup_cons.mp hnd).2
    have hlenr : (q1.record_pnl (resolutionPnl w kv)).pnl_history.length + rest.length
        ≤ 1000 := by
      rw [hq2hist]
      simp only [List.length_append, List.length_cons, List.length_nil]
      omega
    obtain ⟨ihh, ihs, ihl⟩ := ih _ (acc + resolutionPnl w kv) hrest hndr hlenr
    refine ⟨?_, ?_, ?_⟩
    · rw [ihh, hq2hist]
      simp [List.map_append, List.append_assoc]
    · rw [ihs, List.map_cons, List.sum_cons]
      ring
    · rw [ihl, hq2hist]
      simp only [List.length_append, List.length_cons, List.length_nil]
      omega

/-- C1 counterexample: resolving the sample ledger — one winning position
with investment 10 and average entry price 0.5, whose stored unrealized_pnl
field is 0 as every position created by add_position has — realizes a PnL of
10 (the unrealized_pnl field plus the investment), while the claim's formula
investment·(1/avg − 1) + (1 − avg)·shares, with shares = investment/avg,
gives 20. -/
theorem resolve_winner_pnl_cex :
    (samplePortfolio.resolve_market 0 7).2 = 10 ∧
    (samplePortfolio.resolve_market 0 7).1.pnl_history.map PnLRecord.pnl = [10] ∧
    sampleWinningPosition.investment * (1 / sampleWinningPosition.avg_entry_price - 1)
        + (1 - sampleWinningPosition.avg_entry_price)
          * (sampleWinningPosition.investment / sampleWinningPosition.avg_entry_price)
      = 20 ∧
    (10 : ℚ) ≠ 20 := by
  refine ⟨?_, ?_, by norm_num [sampleWinningPosition], by norm_num⟩
  · norm_num [Portfolio.resolve_market, marketKeys, resolveStep, samplePortfolio,
      sampleWinningPosition, lookupPosition, erasePosition, Portfolio.record_pnl,
      Portfolio.total_value, List.find?, List.filter]
  · norm_num [Portfolio.resolve_market, marketKeys, resolveStep, samplePortfolio,
      sampleWinningPosition, lookupPosition, erasePosition, Portfolio.record_pnl,
      Portfolio.total_value, List.find?, List.filter]

/-- C1 (amended): on a ledger with duplicate-free position keys and room in
the 1000-record history, resolve_market removes exactly the market's
positions, appends exactly one PnL record per closed position — carrying the
stored unrealized_pnl field plus the investment for a position whose outcome
matches the winner (which is just the investment for positions created by
buys, whose field stays 0), and minus the investment otherwise — and adds
the total of those PnLs to the realized total. -/
theorem resolve_market_amended (p : Portfolio) (m : MarketId) (w : OutcomeId)
    (hnd : (p.positions.map Prod.fst).Nodup)
    (hlen : p.pnl_history.length
        + (p.positions.filter (fun kv => decide (kv.1.1 = m))).length ≤ 1000) :
    ((p.resolve_market m w).1).positions
        = p.positions.filter (fun kv => decide (¬ kv.1.1 = m)) ∧
    ((p.resolve_market m w).1).pnl_history.map PnLRecord.pnl
        = p.pnl_history.map PnLRecord.pnl
          ++ (p.positions.filter (fun kv => decide (kv.1.1 = m))).map (resolutionPnl w) ∧
    (p.resolve_market m w).2
        = ((p.positions.filter (fun kv => decide (kv.1.1 = m))).map (resolutionPnl w)).sum ∧
    ((p.resolve_market m w).1).total_realized_pnl
        = p.total_realized_pnl + (p.resolve_market m w).2 := by
  have hlk : ∀ kv ∈ p.positions.filter (fun kv => decide (kv.1.1 = m)),
      lookupPosition p.positions kv.1 = some kv.2 := by
    intro kv hkv
    exact lookupPosition_of_nodup_mem _ _ hnd (List.mem_of_mem_filter hkv)
  have hndf : ((p.positions.filter (fun kv => decide (kv.1.1 = m))).map Prod.fst).Nodup :=
    ((List.filter_sublist p.positions).map Prod.fst).nodup hnd
  obtain ⟨hh, hs, hl⟩ := foldl_resolveStep_history w
    (p.positions.filter (fun kv => decide (kv.1.1 = m))) p 0 hlk hndf hlen
  have hfold2 : (p.resolve_market m w).2
      = (((p.positions.filter (fun kv => decide (kv.1.1 = m))).map Prod.fst).foldl
          (resolveStep w) (p, 0)).2 := rfl
  refine ⟨?_, ?_, ?_, ?_⟩
  · rw [resolve_market_positions]
    apply List.filter_congr
    intro kv hkv
    apply decide_eq_decide.mpr
    constructor
    · intro hnotin hm
      exact hnotin (fst_mem_marketKeys p m kv hkv hm)
    · intro hnm hin
      exact hnm (mem_marketKeys_market p m kv.1 hin)
  · exact hh
  · rw [hfold2, hs, zero_add]
  · have h1 : ((p.resolve_market m w).1).total_realized_pnl
        = (((p.positions.filter (fun kv => decide (kv.1.1 = m))).map Prod.fst).foldl
            (resolveStep w) (p, 0)).1.total_realized_pnl
          + (((p.positions.filter (fun kv => decide (kv.1.1 = m))).map Prod.fst).foldl
              (resolveStep w) (p, 0)).2 := rfl
    rw [h1, foldl_resolveStep_total_realized, hfold2]

/-- Witness for the amended C1 theorem at the sample ledger, winning outcome
matching its single position. -/
theorem resolve_market_amended_witness :
    ((samplePortfolio.positions.map Prod.fst).Nodup) ∧
    (samplePortfolio.pnl_history.length
        + (samplePortfolio.positions.filter (fun kv => decide (kv.1.1 = 0))).length
      ≤ 1000) ∧
    (((samplePortfolio.resolve_market 0 7).1).positions
        = samplePortfolio.positions.filter (fun kv => decide (¬ kv.1.1 = 0)) ∧
     ((samplePortfolio.resolve_market 0 7).1).pnl_history.map PnLRecord.pnl
        = samplePortfolio.pnl_history.map PnLRecord.pnl
          ++ (samplePortfolio.positions.filter (fun kv => decide (kv.1.1 = 0))).map
              (resolutionPnl 7) ∧
     (samplePortfolio.resolve_market 0 7).2
        = ((samplePortfolio.positions.filter (fun kv => decide (kv.1.1 = 0))).map
            (resolutionPnl 7)).sum ∧
     ((samplePortfolio.resolve_market 0 7).1).total_realized_pnl
        = samplePortfolio.total_realized_pnl + (samplePortfolio.resolve_market 0 7).2) :=
  ⟨by simp [samplePortfolio], by simp [samplePortfolio],
   resolve_market_amended samplePortfolio 0 7 (by simp [samplePortfolio])
     (by simp [samplePortfolio])⟩

end PolymarketAgent
